import Mathlib

/-!
Verification of the SPI driver in `src/spi.rs` (stm32f042 HAL).

The development shallowly embeds the driver:
the clock-divisor computation of `Spi::spi1`, the sequence of register
effects performed by the constructor, the pin-binding relation `Pins<SPI1>`,
and the non-blocking `read`/`send` operations of the `FullDuplex` impl.
Machine integers (`u32`, `u8`) are embedded as `Nat`; the arithmetic involved
(division, the bucket comparisons) cannot overflow, so no modular reduction
is needed.  Fallible paths (the `unreachable!()` arm and Rust's
divide-by-zero panic) are embedded with `Except`.
-/

namespace SpiHal

/-- Clock phase, from `hal::spi::Phase`. -/
inductive Phase where
  | CaptureOnFirstTransition
  | CaptureOnSecondTransition
deriving DecidableEq

/-- Clock polarity, from `hal::spi::Polarity`. -/
inductive Polarity where
  | IdleLow
  | IdleHigh
deriving DecidableEq

/-- SPI mode, from `hal::spi::Mode`: a phase/polarity pair. -/
structure Mode where
  phase : Phase
  polarity : Polarity
deriving DecidableEq

/-- The ways `Spi::spi1` can panic: Rust's integer division panics when the
divisor is zero, and the `0 => unreachable!()` match arm panics on ratio 0. -/
inductive PanicKind where
  | divideByZero
  | matchUnreachable
deriving DecidableEq

/-- The `match clocks.pclk().0 / speed.0 { ... }` table of `Spi::spi1`
(src/spi.rs lines 72–82), applied to the already-computed ratio.  The Rust
`a...b` patterns are inclusive ranges; since the arms are tried in order,
each arm is the residual upper-bound test. -/
def brLookup (r : Nat) : Except PanicKind Nat :=
  if r = 0 then Except.error PanicKind.matchUnreachable
  else if r ≤ 2 then Except.ok 0
  else if r ≤ 5 then Except.ok 1
  else if r ≤ 11 then Except.ok 2
  else if r ≤ 23 then Except.ok 3
  else if r ≤ 47 then Except.ok 4
  else if r ≤ 95 then Except.ok 5
  else if r ≤ 191 then Except.ok 6
  else Except.ok 7

/-- The full divisor computation of `Spi::spi1`: `clocks.pclk().0 / speed.0`
is a `u32` division, which panics when `speed` is 0; otherwise the quotient
is fed to the match table. -/
def computeBr (pclk speed : Nat) : Except PanicKind Nat :=
  if speed = 0 then Except.error PanicKind.divideByZero
  else brLookup (pclk / speed)

/-- The divisor table exactly as the specification words it (spec §4.2 step 5):
ratio 1–2 → 0, 3–5 → 1, 6–11 → 2, 12–23 → 3, 24–47 → 4, 48–95 → 5,
96–191 → 6, every ratio ≥ 192 → 7.  Spec-side definition, kept separate from
`brLookup` so the two can be compared. -/
def specTableCode (r : Nat) : Nat :=
  if 1 ≤ r ∧ r ≤ 2 then 0
  else if 3 ≤ r ∧ r ≤ 5 then 1
  else if 6 ≤ r ∧ r ≤ 11 then 2
  else if 12 ≤ r ∧ r ≤ 23 then 3
  else if 24 ≤ r ∧ r ≤ 47 then 4
  else if 48 ≤ r ∧ r ≤ 95 then 5
  else if 96 ≤ r ∧ r ≤ 191 then 6
  else 7

set_option maxHeartbeats 1000000 in
/-- For a nonzero ratio, the source's match table agrees with the spec's table. -/
lemma brLookup_eq_specTableCode (r : Nat) (hr : 1 ≤ r) :
    brLookup r = Except.ok (specTableCode r) := by
  unfold brLookup specTableCode
  split_ifs <;> first | rfl | omega

/-- C1: for every bus clock and requested frequency with
bus_clock ≥ requested_frequency ≥ 1, the constructor computes
ratio = floor(bus_clock / requested_frequency) and maps it to the divisor
code exactly by the spec's table. -/
theorem computeBr_matches_spec_table (bus req : Nat) (h1 : 1 ≤ req) (h2 : req ≤ bus) :
    computeBr bus req = Except.ok (specTableCode (bus / req)) := by
  have hr : 1 ≤ bus / req := (Nat.one_le_div_iff h1).mpr h2
  have hs : ¬ req = 0 := by omega
  rw [computeBr, if_neg hs]
  exact brLookup_eq_specTableCode (bus / req) hr

/-- Witness for C1 at the spec's own example: bus 48 MHz, request 1 MHz. -/
theorem computeBr_matches_spec_table_witness :
    1 ≤ 1000000 ∧ 1000000 ≤ 48000000 ∧
      computeBr 48000000 1000000 = Except.ok (specTableCode (48000000 / 1000000)) :=
  ⟨by decide, by decide,
    computeBr_matches_spec_table 48000000 1000000 (by decide) (by decide)⟩

/-- SPI error type, from the `Error` enum in src/spi.rs (the hidden
`_Extensible` variant included). -/
inductive SpiError where
  | Overrun
  | ModeFault
  | Crc
  | Extensible
deriving DecidableEq

/-- Result of a non-blocking operation, from `nb::Result<T, Error>`:
`Ok` carries the value, `WouldBlock` is `Err(nb::Error::WouldBlock)`, and
`Other` is `Err(nb::Error::Other(e))`. -/
inductive NbResult (T : Type) where
  | Ok : T → NbResult T
  | WouldBlock : NbResult T
  | Other : SpiError → NbResult T
deriving DecidableEq

/-- The SPI status register `SR`, restricted to the flags the driver reads:
overrun, mode fault, CRC error, receive-buffer-not-empty,
transmit-buffer-empty. -/
structure SR where
  ovr : Bool
  modf : Bool
  crcerr : Bool
  rxne : Bool
  txe : Bool
deriving DecidableEq

/-- `FullDuplex::read` (src/spi.rs lines 125–143), as a function of the
status-register value read at entry and of the byte currently in the data
register.  The second component records whether the data register was
accessed (the `ptr::read_volatile` of `dr`). -/
def spiRead (sr : SR) (dr : Nat) : NbResult Nat × Bool :=
  if sr.ovr then (NbResult.Other SpiError.Overrun, false)
  else if sr.modf then (NbResult.Other SpiError.ModeFault, false)
  else if sr.crcerr then (NbResult.Other SpiError.Crc, false)
  else if sr.rxne then (NbResult.Ok dr, true)
  else (NbResult.Ok 0, false)

/-- `FullDuplex::send` (src/spi.rs lines 145–161), as a function of the
status-register value read at entry and the byte to transmit.  The second
component records the byte written to the data register
(the `ptr::write_volatile` of `dr`), when one is written. -/
def spiSend (sr : SR) (byte : Nat) : NbResult Unit × Option Nat :=
  if sr.ovr then (NbResult.Other SpiError.Overrun, none)
  else if sr.modf then (NbResult.Other SpiError.ModeFault, none)
  else if sr.crcerr then (NbResult.Other SpiError.Crc, none)
  else if sr.txe then (NbResult.Ok (), some byte)
  else (NbResult.WouldBlock, none)

/-- C2: read checks overrun, then mode fault, then CRC error, in that order,
before ever consulting the receive-buffer-not-empty flag; with overrun set it
fails with `Overrun` and never touches the data register, whatever the other
flags (in particular when `rxne` is simultaneously set). -/
theorem spiRead_error_precedence (sr : SR) (dr : Nat) :
    (sr.ovr = true → spiRead sr dr = (NbResult.Other SpiError.Overrun, false)) ∧
    (sr.ovr = false → sr.modf = true →
      spiRead sr dr = (NbResult.Other SpiError.ModeFault, false)) ∧
    (sr.ovr = false → sr.modf = false → sr.crcerr = true →
      spiRead sr dr = (NbResult.Other SpiError.Crc, false)) ∧
    ((spiRead sr dr).2 = true →
      sr.ovr = false ∧ sr.modf = false ∧ sr.crcerr = false ∧ sr.rxne = true) := by
  obtain ⟨o, m, c, r, t⟩ := sr
  cases o <;> cases m <;> cases c <;> cases r <;> simp [spiRead]

/-- Witness for C2: overrun and receive-not-empty set together still yield
`Overrun` with no data-register access. -/
theorem spiRead_error_precedence_witness :
    spiRead ⟨true, false, false, true, false⟩ 201 =
      (NbResult.Other SpiError.Overrun, false) :=
  (spiRead_error_precedence ⟨true, false, false, true, false⟩ 201).1 rfl

/-- C3: send performs the same three error checks as read, in the same order;
with no error flag set it transmits the byte exactly when the
transmit-buffer-empty flag is set, and it reports would-block if and only if
the transmit-buffer-empty flag is clear and no error flag is set. -/
theorem spiSend_case_analysis (sr : SR) (byte : Nat) :
    (sr.ovr = true → spiSend sr byte = (NbResult.Other SpiError.Overrun, none)) ∧
    (sr.ovr = false → sr.modf = true →
      spiSend sr byte = (NbResult.Other SpiError.ModeFault, none)) ∧
    (sr.ovr = false → sr.modf = false → sr.crcerr = true →
      spiSend sr byte = (NbResult.Other SpiError.Crc, none)) ∧
    (sr.ovr = false → sr.modf = false → sr.crcerr = false → sr.txe = true →
      spiSend sr byte = (NbResult.Ok (), some byte)) ∧
    ((spiSend sr byte).1 = NbResult.WouldBlock ↔
      sr.txe = false ∧ sr.ovr = false ∧ sr.modf = false ∧ sr.crcerr = false) := by
  obtain ⟨o, m, c, r, t⟩ := sr
  cases o <;> cases m <;> cases c <;> cases t <;> simp [spiSend]

/-- Witness for C3: with only transmit-buffer-empty set, the byte is written
and the call succeeds. -/
theorem spiSend_case_analysis_witness :
    spiSend ⟨false, false, false, false, true⟩ 77 = (NbResult.Ok (), some 77) :=
  (spiSend_case_analysis ⟨false, false, false, false, true⟩ 77).2.2.2.1
    rfl rfl rfl rfl

/-- C4: with no error flag set and the receive-buffer-not-empty flag clear,
read returns success with the byte 0 — not a would-block signal — and does
not access the data register. -/
theorem spiRead_idle_returns_zero (sr : SR) (dr : Nat)
    (ho : sr.ovr = false) (hm : sr.modf = false) (hc : sr.crcerr = false)
    (hr : sr.rxne = false) :
    spiRead sr dr = (NbResult.Ok 0, false) := by
  simp [spiRead, ho, hm, hc, hr]

/-- Witness for C4 at a concrete idle status register. -/
theorem spiRead_idle_returns_zero_witness :
    spiRead ⟨false, false, false, false, true⟩ 150 = (NbResult.Ok 0, false) :=
  spiRead_idle_returns_zero ⟨false, false, false, false, true⟩ 150 rfl rfl rfl rfl

/-- The SPI control register `CR1` as a record of the bit fields the driver
programs (`br` is the 3-bit divisor code). -/
structure CR1 where
  cpha : Bool
  cpol : Bool
  mstr : Bool
  br : Nat
  lsbfirst : Bool
  ssm : Bool
  ssi : Bool
  rxonly : Bool
  bidimode : Bool
  spe : Bool
deriving DecidableEq

/-- The value the constructor writes to `CR1` in its final `spi.cr1.write`
(src/spi.rs lines 90–114), given the mode and the computed divisor code. -/
def cr1Value (m : Mode) (code : Nat) : CR1 :=
  { cpha := m.phase == Phase.CaptureOnSecondTransition
    cpol := m.polarity == Polarity.IdleHigh
    mstr := true
    br := code
    lsbfirst := false
    ssm := true
    ssi := true
    rxonly := false
    bidimode := false
    spe := true }

/-- One register access performed by `Spi::spi1`, in source order:
the RCC clock-enable modify, the two reset-pulse modifies, the `CR1` modify
clearing only `SPE`, the `CR2` write clearing `SSOE`, and the final full
`CR1` write. -/
inductive RegEffect where
  | apb2enrSetSpi1en
  | apb2rstrSetSpi1rst
  | apb2rstrClearSpi1rst
  | cr1ModifyClearSpe
  | cr2WriteClearSsoe
  | cr1Write : CR1 → RegEffect
deriving DecidableEq

/-- The five register accesses `Spi::spi1` performs before computing the
divisor (src/spi.rs lines 60–70). -/
def preTrace : List RegEffect :=
  [RegEffect.apb2enrSetSpi1en, RegEffect.apb2rstrSetSpi1rst,
   RegEffect.apb2rstrClearSpi1rst, RegEffect.cr1ModifyClearSpe,
   RegEffect.cr2WriteClearSsoe]

/-- `Spi::spi1` (src/spi.rs lines 52–115): the list of register effects in
the order performed, and either the panic that interrupted construction or
the `CR1` configuration held by the returned driver instance.  A panic in
the divisor computation leaves the five preparatory accesses already done
and performs no further access. -/
def spi1 (m : Mode) (speed pclk : Nat) : List RegEffect × Except PanicKind CR1 :=
  match computeBr pclk speed with
  | Except.error p => (preTrace, Except.error p)
  | Except.ok code =>
      (preTrace ++ [RegEffect.cr1Write (cr1Value m code)], Except.ok (cr1Value m code))

/-- The slice of hardware state the constructor touches: the RCC clock-enable
and reset bits for SPI1, the `SSOE` bit of `CR2`, and `CR1`. -/
structure RegState where
  spi1en : Bool
  spi1rst : Bool
  ssoe : Bool
  cr1 : CR1
deriving DecidableEq

/-- Effect of one register access on the hardware state.  The `modify`
accesses touch only their named bit; the `CR2` write clears `SSOE`; the final
write replaces `CR1` wholesale. -/
def applyEffect (s : RegState) (e : RegEffect) : RegState :=
  match e with
  | RegEffect.apb2enrSetSpi1en => { s with spi1en := true }
  | RegEffect.apb2rstrSetSpi1rst => { s with spi1rst := true }
  | RegEffect.apb2rstrClearSpi1rst => { s with spi1rst := false }
  | RegEffect.cr1ModifyClearSpe => { s with cr1 := { s.cr1 with spe := false } }
  | RegEffect.cr2WriteClearSsoe => { s with ssoe := false }
  | RegEffect.cr1Write v => { s with cr1 := v }

/-- A fixed mode used by concrete witnesses. -/
def someMode : Mode :=
  { phase := Phase.CaptureOnFirstTransition, polarity := Polarity.IdleLow }

/-- C5: when the requested frequency exceeds the bus clock the ratio is 0 and
the constructor hits the `unreachable!()` arm: it panics after only the five
preparatory accesses and never produces a divisor code or a driver instance;
and whenever the ratio is at least 1, that failure branch is not taken. -/
theorem spi1_divisor_zero_contract (m : Mode) (pclk speed : Nat) :
    (pclk < speed →
      spi1 m speed pclk = (preTrace, Except.error PanicKind.matchUnreachable)) ∧
    (1 ≤ pclk / speed →
      ∃ code, spi1 m speed pclk =
        (preTrace ++ [RegEffect.cr1Write (cr1Value m code)],
          Except.ok (cr1Value m code))) := by
  constructor
  · intro h
    have hs : ¬ speed = 0 := by omega
    have hdiv : pclk / speed = 0 := Nat.div_eq_of_lt h
    rw [spi1, computeBr, if_neg hs, hdiv]
    rfl
  · intro h
    have hs : ¬ speed = 0 := by
      intro h0
      rw [h0, Nat.div_zero] at h
      omega
    have hok : ∃ code, computeBr pclk speed = Except.ok code := by
      rw [computeBr, if_neg hs]
      unfold brLookup
      split_ifs <;> first | omega | exact ⟨_, rfl⟩
    obtain ⟨code, hcode⟩ := hok
    exact ⟨code, by rw [spi1, hcode]⟩

/-- Witness for C5: requesting 2 Hz on a 1 Hz bus clock panics after the
preparatory accesses; a ratio-4 request constructs normally. -/
theorem spi1_divisor_zero_contract_witness :
    spi1 someMode 2 1 = (preTrace, Except.error PanicKind.matchUnreachable) ∧
    (∃ code, spi1 someMode 2 8 =
      (preTrace ++ [RegEffect.cr1Write (cr1Value someMode code)],
        Except.ok (cr1Value someMode code))) :=
  ⟨(spi1_divisor_zero_contract someMode 1 2).1 (by decide),
   (spi1_divisor_zero_contract someMode 8 2).2 (by decide)⟩

/-- C10: with requested frequency 0 the `u32` division itself panics
(divide by zero), and by then the clock-enable, reset-pulse,
peripheral-disable and slave-select-output-disable accesses have already
taken effect: construction is not atomic on this failure. -/
theorem spi1_speed_zero_divide_panic (m : Mode) (pclk : Nat) :
    spi1 m 0 pclk =
      ([RegEffect.apb2enrSetSpi1en, RegEffect.apb2rstrSetSpi1rst,
        RegEffect.apb2rstrClearSpi1rst, RegEffect.cr1ModifyClearSpe,
        RegEffect.cr2WriteClearSsoe],
        Except.error PanicKind.divideByZero) := by
  rw [spi1, computeBr, if_pos rfl]
  rfl

/-- C8: on any input on which the divisor computation succeeds, the
constructor performs exactly the six effects in source order — clock enable,
reset set, reset clear, `SPE` clear, `SSOE` clear, then one single `CR1`
write carrying the whole configuration — and along that sequence the
peripheral-enable bit is false from the `SPE`-clearing access up to, and
except for, the final write, which sets it. -/
theorem spi1_register_sequence (m : Mode) (pclk speed code : Nat)
    (hcode : computeBr pclk speed = Except.ok code) :
    (spi1 m speed pclk).1 =
      [RegEffect.apb2enrSetSpi1en, RegEffect.apb2rstrSetSpi1rst,
       RegEffect.apb2rstrClearSpi1rst, RegEffect.cr1ModifyClearSpe,
       RegEffect.cr2WriteClearSsoe,
       RegEffect.cr1Write
         { cpha := m.phase == Phase.CaptureOnSecondTransition
           cpol := m.polarity == Polarity.IdleHigh
           mstr := true
           br := code
           lsbfirst := false
           ssm := true
           ssi := true
           rxonly := false
           bidimode := false
           spe := true }] ∧
    (∀ s0 : RegState,
      (List.foldl applyEffect s0 ((spi1 m speed pclk).1.take 4)).cr1.spe = false) ∧
    (∀ s0 : RegState,
      (List.foldl applyEffect s0 ((spi1 m speed pclk).1.take 5)).cr1.spe = false) ∧
    (∀ s0 : RegState,
      (List.foldl applyEffect s0 (spi1 m speed pclk).1).cr1 = cr1Value m code) := by
  rw [spi1, hcode]
  refine ⟨rfl, ?_, ?_, ?_⟩ <;> intro s0 <;> simp [preTrace, applyEffect, cr1Value]

/-- Witness for C8 at ratio 2 (bus clock 2, request 1), divisor code 0. -/
theorem spi1_register_sequence_witness :
    computeBr 2 1 = Except.ok 0 ∧
    ((spi1 someMode 1 2).1 =
      [RegEffect.apb2enrSetSpi1en, RegEffect.apb2rstrSetSpi1rst,
       RegEffect.apb2rstrClearSpi1rst, RegEffect.cr1ModifyClearSpe,
       RegEffect.cr2WriteClearSsoe,
       RegEffect.cr1Write
         { cpha := someMode.phase == Phase.CaptureOnSecondTransition
           cpol := someMode.polarity == Polarity.IdleHigh
           mstr := true
           br := 0
           lsbfirst := false
           ssm := true
           ssi := true
           rxonly := false
           bidimode := false
           spe := true }] ∧
    (∀ s0 : RegState,
      (List.foldl applyEffect s0 ((spi1 someMode 1 2).1.take 4)).cr1.spe = false) ∧
    (∀ s0 : RegState,
      (List.foldl applyEffect s0 ((spi1 someMode 1 2).1.take 5)).cr1.spe = false) ∧
    (∀ s0 : RegState,
      (List.foldl applyEffect s0 (spi1 someMode 1 2).1).cr1 = cr1Value someMode 0)) :=
  ⟨rfl, spi1_register_sequence someMode 2 1 0 rfl⟩

/-- Auxiliary bound: if the ratio bucket guarantees ratio + 1 ≤ 3·2^k, the
frequency obtained with divisor 2^(k+1) is below one and a half times the
requested frequency. -/
lemma actual_freq_aux (pclk speed k : Nat) (hs : 0 < speed)
    (hub : pclk / speed + 1 ≤ 3 * 2 ^ k) :
    2 * (pclk / 2 ^ (k + 1)) < 3 * speed := by
  have h2k : 0 < 2 ^ k := Nat.pos_pow_of_pos k (by omega)
  have h1 : pclk < (pclk / speed + 1) * speed :=
    (Nat.div_lt_iff_lt_mul hs).mp (Nat.lt_succ_self _)
  have h2 : pclk < 3 * 2 ^ k * speed :=
    lt_of_lt_of_le h1 (Nat.mul_le_mul_right speed hub)
  have h3 : pclk / 2 ^ k < 3 * speed := by
    rw [Nat.div_lt_iff_lt_mul h2k]
    calc pclk < 3 * 2 ^ k * speed := h2
    _ = 3 * speed * 2 ^ k := by ring
  have h4 : 2 * (pclk / 2 ^ (k + 1)) ≤ pclk / 2 ^ k := by
    rw [pow_succ, ← Nat.div_div_eq_div_mul, Nat.mul_comm]
    exact Nat.div_mul_le_self (pclk / 2 ^ k) 2
  omega

/-- Counterexample to C6 as stated: with bus clock 8 and requested
frequency 3 the ratio is 2, the divisor code is 0 (divide by 2), and the
actual frequency 8 / 2 = 4 exceeds the requested 3. -/
theorem actual_freq_can_exceed_request :
    1 ≤ 3 ∧ 3 ≤ 8 ∧ computeBr 8 3 = Except.ok 0 ∧ ¬ 8 / 2 ^ (0 + 1) ≤ 3 :=
  ⟨by decide, by decide, rfl, by decide⟩

/-- C6 amended: the mapping rounds the ratio to a nearby power of two rather
than up, so the actual frequency can exceed the requested one; what holds is
that for every ratio the table covers with a dedicated bucket (ratio ≤ 191,
codes 0–6) the actual frequency bus_clock / 2^(code+1) stays below 1.5 times
the requested frequency.  (For ratio ≥ 192 the divisor saturates at 256 and
no bound relative to the request holds.) -/
theorem actual_freq_bound (pclk speed code : Nat) (h1 : 1 ≤ speed)
    (h2 : speed ≤ pclk) (h3 : pclk / speed ≤ 191)
    (hcode : computeBr pclk speed = Except.ok code) :
    2 * (pclk / 2 ^ (code + 1)) < 3 * speed := by
  have hs : ¬ speed = 0 := by omega
  rw [computeBr, if_neg hs] at hcode
  unfold brLookup at hcode
  split_ifs at hcode with g0 g1 g2 g3 g4 g5 g6
  all_goals obtain rfl := Except.ok.inj hcode
  · exact actual_freq_aux pclk speed 0 (by omega) (by norm_num; omega)
  · exact actual_freq_aux pclk speed 1 (by omega) (by norm_num; omega)
  · exact actual_freq_aux pclk speed 2 (by omega) (by norm_num; omega)
  · exact actual_freq_aux pclk speed 3 (by omega) (by norm_num; omega)
  · exact actual_freq_aux pclk speed 4 (by omega) (by norm_num; omega)
  · exact actual_freq_aux pclk speed 5 (by omega) (by norm_num; omega)
  · exact actual_freq_aux pclk speed 6 (by omega) (by norm_num; omega)

/-- Witness for the amended C6: bus clock 10, request 1, ratio 10, code 2,
actual frequency 10 / 8 = 1 and 2 · 1 < 3 · 1. -/
theorem actual_freq_bound_witness :
    1 ≤ 1 ∧ 1 ≤ 10 ∧ 10 / 1 ≤ 191 ∧ 2 * (10 / 2 ^ (2 + 1)) < 3 * 1 :=
  ⟨by decide, by decide, by decide,
    actual_freq_bound 10 1 2 (by decide) (by decide) (by decide) rfl⟩

/-- The characterisation C7 asserts, in the spec's words: 2^(c+1) is the
smallest power-of-two bound containing the ratio.  Spec-side definition,
kept separate from the source's table for comparison. -/
def specSmallestPow2Bound (r c : Nat) : Prop :=
  r ≤ 2 ^ (c + 1) ∧ ∀ d, r ≤ 2 ^ (d + 1) → c ≤ d

/-- Counterexample to C7 as stated: bus clock 5, requested frequency 1 gives
ratio 5 and code 1, but 5 is not contained in the bound 2^(1+1) = 4 — the
smallest power-of-two bound for ratio 5 is 2^3, which would be code 2. -/
theorem code_is_not_smallest_pow2_bound :
    1 ≤ 1 ∧ 1 ≤ 5 ∧ computeBr 5 1 = Except.ok 1 ∧ ¬ specSmallestPow2Bound 5 1 :=
  ⟨by decide, by decide, rfl, fun h => absurd h.1 (by decide)⟩

/-- The bucket that actually characterises the source's table: code 0 covers
ratios 1–2, code c for 1 ≤ c ≤ 6 covers 3·2^(c-1) ≤ ratio < 3·2^c, and
code 7 covers every ratio ≥ 192. -/
def bucketOf (r c : Nat) : Prop :=
  (c = 0 ∧ 1 ≤ r ∧ r ≤ 2) ∨
  (1 ≤ c ∧ c ≤ 6 ∧ 3 * 2 ^ (c - 1) ≤ r ∧ r < 3 * 2 ^ c) ∨
  (c = 7 ∧ 192 ≤ r)

instance (r c : Nat) : Decidable (bucketOf r c) := by
  unfold bucketOf
  exact inferInstance

set_option maxHeartbeats 1600000 in
/-- The spec-side table lands in a bucket exactly as `bucketOf` describes. -/
lemma specTableCode_eq_iff_bucketOf (r c : Nat) (hr : 1 ≤ r) :
    specTableCode r = c ↔ bucketOf r c := by
  constructor
  · intro h
    unfold specTableCode at h
    split_ifs at h
    all_goals subst h
    all_goals unfold bucketOf
    all_goals norm_num
    all_goals omega
  · intro h
    unfold bucketOf at h
    unfold specTableCode
    rcases h with ⟨rfl, hlo, hhi⟩ | ⟨hc1, hc6, hlo, hhi⟩ | ⟨rfl, h192⟩
    · split_ifs <;> omega
    · interval_cases c <;> norm_num at hlo hhi <;> (split_ifs <;> omega)
    · split_ifs <;> omega

/-- For a nonzero ratio the source's table lands in a bucket exactly as
`bucketOf` describes. -/
lemma brLookup_eq_ok_iff_bucketOf (r c : Nat) (hr : 1 ≤ r) :
    brLookup r = Except.ok c ↔ bucketOf r c := by
  rw [brLookup_eq_specTableCode r hr, ← specTableCode_eq_iff_bucketOf r c hr]
  constructor
  · exact fun h => Except.ok.inj h
  · exact fun h => by rw [h]

/-- C7 amended: the mapping is not the smallest-power-of-two bound; instead,
for bus_clock ≥ requested_frequency ≥ 1 the computed code is the unique
index whose bucket contains the ratio, where the buckets are 1–2 for code 0,
3·2^(c−1) to 3·2^c − 1 for codes 1–6, and ≥ 192 for code 7; the spec's
example stands: bus 48 MHz at 1 MHz gives ratio 48 and code 0b101. -/
theorem computeBr_bucket_characterisation (pclk speed c : Nat)
    (h1 : 1 ≤ speed) (h2 : speed ≤ pclk) :
    computeBr pclk speed = Except.ok c ↔ bucketOf (pclk / speed) c := by
  have hr : 1 ≤ pclk / speed := (Nat.one_le_div_iff h1).mpr h2
  have hs : ¬ speed = 0 := by omega
  rw [computeBr, if_neg hs]
  exact brLookup_eq_ok_iff_bucketOf (pclk / speed) c hr

/-- Witness for the amended C7 at the spec's example:
48 MHz at 1 MHz yields code 0b101 = 5. -/
theorem computeBr_bucket_characterisation_witness :
    computeBr 48000000 1000000 = Except.ok 5 :=
  (computeBr_bucket_characterisation 48000000 1000000 5
    (by decide) (by decide)).mpr (by decide)

/-- GPIO ports of the chip. -/
inductive Port where
  | A
  | B
  | C
  | D
  | F
deriving DecidableEq

/-- A GPIO pin in alternate-function mode: its port, its number on the port,
and the alternate-function index it is configured for — the shape of the
types `PXn<Alternate<AFm>>`. -/
structure AltPin where
  port : Port
  num : Nat
  af : Nat
deriving DecidableEq

/-- PA5 in AF0, the type `PA5<Alternate<AF0>>`. -/
def pa5 : AltPin := { port := Port.A, num := 5, af := 0 }

/-- PA6 in AF0. -/
def pa6 : AltPin := { port := Port.A, num := 6, af := 0 }

/-- PA7 in AF0. -/
def pa7 : AltPin := { port := Port.A, num := 7, af := 0 }

/-- PB2 in AF0. -/
def pb2 : AltPin := { port := Port.B, num := 2, af := 0 }

/-- PB4 in AF0. -/
def pb4 : AltPin := { port := Port.B, num := 4, af := 0 }

/-- PB5 in AF0. -/
def pb5 : AltPin := { port := Port.B, num := 5, af := 0 }

/-- The `Pins<SPI1>` trait relation (src/spi.rs lines 34–49): one
constructor per `impl` block.  A pin-tuple type is accepted by `spi1`
exactly when it inhabits this relation; there is no runtime component. -/
inductive PinsSpi1 : AltPin × AltPin × AltPin → Prop where
  | gpioaImpl : PinsSpi1 (pa5, pa6, pa7)
  | gpiobImpl : PinsSpi1 (pb2, pb4, pb5)

/-- C9: a pin tuple is accepted for SPI1 if and only if it is one of exactly
the two declared tuples, (PA5, PA6, PA7) or (PB2, PB4, PB5), each in
alternate-function-0 mode; every other tuple is outside the relation. -/
theorem pinsSpi1_exactly_two_tuples (t : AltPin × AltPin × AltPin) :
    PinsSpi1 t ↔ t = (pa5, pa6, pa7) ∨ t = (pb2, pb4, pb5) := by
  constructor
  · intro h
    cases h
    · exact Or.inl rfl
    · exact Or.inr rfl
  · intro h
    rcases h with rfl | rfl
    · exact PinsSpi1.gpioaImpl
    · exact PinsSpi1.gpiobImpl

/-- Witness for C9: the GPIOB tuple is in the relation, and a tuple that
swaps PB4 and PB5 is not. -/
theorem pinsSpi1_exactly_two_tuples_witness :
    PinsSpi1 (pb2, pb4, pb5) ∧ ¬ PinsSpi1 (pb2, pb5, pb4) :=
  ⟨(pinsSpi1_exactly_two_tuples (pb2, pb4, pb5)).mpr (Or.inr rfl),
   fun h => by
    rcases (pinsSpi1_exactly_two_tuples (pb2, pb5, pb4)).mp h with h1 | h1 <;>
      simpa [pa5, pa6, pa7, pb2, pb4, pb5, Prod.ext_iff] using h1⟩

end SpiHal
